import Mathlib

/-!
Effective Modern C++ snippets: `ThreadRAII` (Chapter 6, 6.cpp) and `get` (Chapter 1, 3.cpp).

A shallow embedding of two snippets of the repository.

* `codes/Chapter 6/6.cpp`: the class `ThreadRAII`, which owns a `std::thread` and a
  `DtorAction`, and joins or detaches the thread in its destructor when it is joinable.
* `codes/Chapter 1/3.cpp`: the function template `get(c, i)`, which returns `c[i]` by
  reference (`decltype(auto)`).

Stateful code is embedded by explicit state passing.  A member function of an object of
type `σ` is a function `σ → World → Step σ`: it is given the object and the state of the
threads of execution, and yields how the call exits together with the object and the world
after it.
-/

namespace Chapter6

/-! The threads of execution. -/

/-- Identifier of a thread of execution (`std::thread::id` of a started thread). -/
abbrev Tid := Nat

/-- An operation a handle performs on a thread of execution. -/
inductive Op
  | join (tid : Tid)
  | detach (tid : Tid)
  deriving DecidableEq, Repr

/-- How far a thread of execution has come.  A running thread still has to set the flags in
`writes` before it returns; a looping thread never returns. -/
inductive Progress
  | running (writes : List Nat)
  | looping
  | finished
  deriving DecidableEq, Repr

/-- The state outside the wrapper: the progress of every thread of execution, the shared
flags the threads write, the operations for which the platform reports an error (for
instance a join of the calling thread itself, `resource_deadlock_would_occur`), and the
history of the join and detach operations performed so far. -/
structure World where
  tasks : Tid → Progress
  flags : Nat → Bool
  fails : Op → Bool
  ops : List Op

/-- How a call exits: it returns, it throws an exception to its caller, it blocks for ever,
or the process is ended by `std::terminate`. -/
inductive Exit
  | returns
  | throws
  | blocks
  | terminates
  deriving DecidableEq, Repr

/-- Outcome of a member function call on an object of type `σ`. -/
structure Step (σ : Type) where
  exit : Exit
  obj : σ
  world : World

/-- The world once thread `tid` has run to completion: its pending writes are done and it
is finished. -/
def World.complete (w : World) (tid : Tid) : World :=
  match w.tasks tid with
  | .running writes =>
    { w with
      tasks := fun i => if i = tid then .finished else w.tasks i
      flags := fun f => decide (f ∈ writes) || w.flags f }
  | _ => w

/-- The world with one more operation in its history. -/
def World.record (w : World) (o : Op) : World :=
  { w with ops := w.ops ++ [o] }

/-! The handle `std::thread`. -/

/-- Modelled from the spec: the class `std::thread` of the C++ standard library, which
6.cpp includes and which is not part of the repository.  A handle is joinable when it
refers to a thread of execution (glossary: a handle that has not yet been reclaimed via
join or detach). -/
structure Thread where
  id : Option Tid
  deriving DecidableEq, Repr

/-- Modelled from the spec: `std::thread::joinable`, `get_id() != id()`. -/
def Thread.joinable (t : Thread) : Bool := t.id.isSome

/-- Modelled from the spec: the move constructor of `std::thread` (design notes: a
single-owner handle, transfer operations null out the source).  The first component is the
newly constructed handle, the second the moved-from handle, which is left empty. -/
def Thread.move (t : Thread) : Thread × Thread := (⟨t.id⟩, ⟨none⟩)

/-- Modelled from the spec: `std::thread::join` (glossary: block until the referenced task
completes, then reclaim its resources).  On a handle that is not joinable it throws
(`invalid_argument`) without touching a thread; otherwise the join is performed on the
thread: if the platform reports an error it throws and the handle stays as it was, if the
thread never returns the call blocks, and else the thread has completed and the handle is
left empty. -/
def Thread.join (t : Thread) (w : World) : Step Thread :=
  match t.id with
  | none => ⟨.throws, t, w⟩
  | some tid =>
    if w.fails (.join tid) then ⟨.throws, t, w.record (.join tid)⟩
    else
      match w.tasks tid with
      | .looping => ⟨.blocks, t, w.record (.join tid)⟩
      | _ => ⟨.returns, ⟨none⟩, (w.record (.join tid)).complete tid⟩

/-- Modelled from the spec: `std::thread::detach` (glossary: relinquish management of the
referenced task's lifetime, letting it run to completion independently).  It never waits
for the thread and leaves the progress of the thread as it is. -/
def Thread.detach (t : Thread) (w : World) : Step Thread :=
  match t.id with
  | none => ⟨.throws, t, w⟩
  | some tid =>
    if w.fails (.detach tid) then ⟨.throws, t, w.record (.detach tid)⟩
    else ⟨.returns, ⟨none⟩, w.record (.detach tid)⟩

/-! The class `ThreadRAII`. -/

/-- The enumeration `ThreadRAII::DtorAction`. -/
inductive DtorAction
  | join
  | detach
  deriving DecidableEq, Repr

/-- The data members of `class ThreadRAII`. -/
structure ThreadRAII where
  action : DtorAction
  t : Thread
  deriving DecidableEq, Repr

/-- The constructor `ThreadRAII(std::thread&& t, DtorAction a) : action(a), t(std::move(t))`.
The first component is the constructed object, the second the argument handle after the
call (it was bound by rvalue reference and moved from). -/
def ThreadRAII.ctor (t : Thread) (a : DtorAction) : ThreadRAII × Thread :=
  let m := Thread.move t
  ({ action := a, t := m.1 }, m.2)

/-- The body of the destructor `~ThreadRAII()`. -/
def ThreadRAII.dtorBody (self : ThreadRAII) (w : World) : Step ThreadRAII :=
  if self.t.joinable then
    if self.action = DtorAction.join then
      let r := self.t.join w
      ⟨r.exit, { self with t := r.obj }, r.world⟩
    else
      let r := self.t.detach w
      ⟨r.exit, { self with t := r.obj }, r.world⟩
  else
    ⟨.returns, self, w⟩

/-- An exception that leaves a function with a non-throwing exception specification ends
the process. -/
def Exit.atNoexcept : Exit → Exit
  | .throws => .terminates
  | e => e

/-- The destructor `~ThreadRAII()`.  It is declared without an exception specification,
so it is `noexcept`; its body has no handler. -/
def ThreadRAII.dtor (self : ThreadRAII) (w : World) : Step ThreadRAII :=
  let r := self.dtorBody w
  ⟨r.exit.atNoexcept, r.obj, r.world⟩

/-- The member function `std::thread& get() { return t; }`: the handle the returned
reference designates. -/
def ThreadRAII.get (self : ThreadRAII) : Thread := self.t

/-- A member function of `std::thread` called on the reference `get()` returns: the call
acts on the data member `t` in place. -/
def ThreadRAII.onGet (f : Thread → World → Step Thread) (self : ThreadRAII) (w : World) :
    Step ThreadRAII :=
  let r := f self.get w
  ⟨r.exit, { self with t := r.obj }, r.world⟩

/-- Modelled from the spec: the destructor of `std::thread` (4.1: destroying a handle
that is still joinable is a fatal condition).  On a handle that is not joinable it has no
effect. -/
def Thread.dtor (t : Thread) (w : World) : Step Thread :=
  if t.joinable then ⟨.terminates, t, w⟩ else ⟨.returns, t, w⟩

/-- The operation the destructor performs on thread `tid` under a policy. -/
def DtorAction.op : DtorAction → Tid → Op
  | .join, tid => .join tid
  | .detach, tid => .detach tid

/-- The destructor run `n` times in a row; a run that does not return ends the
sequence. -/
def ThreadRAII.dtorTimes : Nat → ThreadRAII → World → Step ThreadRAII
  | 0, self, w => ⟨.returns, self, w⟩
  | n + 1, self, w =>
    let r := self.dtor w
    if r.exit = .returns then ThreadRAII.dtorTimes n r.obj r.world else r

/-- An operation available on a `ThreadRAII` object: `get()`, a member function of
`std::thread` called on the handle `get()` returns, or the destructor. -/
inductive Call
  | get
  | onHandle (f : Thread → World → Step Thread)
  | dtor

/-- One call on the object. -/
def Call.run : Call → ThreadRAII → World → Step ThreadRAII
  | .get, self, w => ⟨.returns, self, w⟩
  | .onHandle f, self, w => self.onGet f w
  | .dtor, self, w => self.dtor w

/-- A sequence of calls on the object; a call that does not return ends the sequence. -/
def runCalls : List Call → ThreadRAII → World → Step ThreadRAII
  | [], self, w => ⟨.returns, self, w⟩
  | c :: cs, self, w =>
    let r := c.run self w
    if r.exit = .returns then runCalls cs r.obj r.world else r

/-- The world in which the thread of `main` in 6.cpp has been started: thread `0` runs and
will set flag `0`, no platform operation fails, nothing has been joined or detached. -/
def started : World :=
  { tasks := fun _ => .running [0]
    flags := fun _ => false
    fails := fun _ => false
    ops := [] }

/-- A world in which the platform cannot join thread `0`. -/
def joinFailing : World :=
  { started with fails := fun o => decide (o = Op.join 0) }

/-- A world in which every thread loops for ever. -/
def spinning : World :=
  { started with tasks := fun _ => .looping }

/-! Properties of the destructor. -/

/-- The destructor of an object whose handle is not joinable returns at once and changes
neither the object nor the world. -/
theorem dtor_not_joinable (self : ThreadRAII) (w : World) (hn : self.t.id = none) :
    self.dtor w = ⟨.returns, self, w⟩ := by
  simp [ThreadRAII.dtor, ThreadRAII.dtorBody, Thread.joinable, hn, Exit.atNoexcept]

/-- The history after the destructor of an object that owns thread `tid`: exactly the
operation of the policy is added. -/
theorem dtor_ops (self : ThreadRAII) (tid : Tid) (w : World) (hj : self.t.id = some tid) :
    (self.dtor w).world.ops = w.ops ++ [self.action.op tid] := by
  cases ha : self.action <;>
    simp only [ThreadRAII.dtor, ThreadRAII.dtorBody, Thread.joinable, Thread.join,
      Thread.detach, hj, ha, DtorAction.op, Option.isSome_some, if_true]
  · by_cases hf : w.fails (Op.join tid) = true
    · simp [hf, World.record]
    · simp only [hf]
      cases ht : w.tasks tid <;> simp [World.record, World.complete, ht]
  · by_cases hf : w.fails (Op.detach tid) = true <;> simp [hf, World.record]

/-- When the destructor returns, the handle of the object is not joinable. -/
theorem dtor_returns_not_joinable (self : ThreadRAII) (w : World)
    (hr : (self.dtor w).exit = .returns) : (self.dtor w).obj.t.id = none := by
  cases hid : self.t.id with
  | none => rw [dtor_not_joinable self w hid]; exact hid
  | some tid =>
    revert hr
    cases ha : self.action <;>
      simp only [ThreadRAII.dtor, ThreadRAII.dtorBody, Thread.joinable, Thread.join,
        Thread.detach, hid, ha, Option.isSome_some, if_true]
    · by_cases hf : w.fails (Op.join tid) = true
      · simp [hf, Exit.atNoexcept]
      · simp only [hf]
        cases ht : w.tasks tid <;> simp [Exit.atNoexcept]
    · by_cases hf : w.fails (Op.detach tid) = true <;> simp [hf, Exit.atNoexcept]

/-- C1: a `ThreadRAII` constructed with a joinable handle and `DtorAction::join` performs
exactly one join on its thread and no detach in the destructor; when the destructor returns
the thread has finished, every flag the thread had to set is set, and the handle is not
joinable; and the destructor does return when the join does not fail and the thread is not
looping. -/
theorem join_on_exit (h : Thread) (tid : Tid) (w : World) (hj : h.id = some tid) :
    ((ThreadRAII.ctor h .join).1.dtor w).world.ops = w.ops ++ [Op.join tid]
    ∧ (((ThreadRAII.ctor h .join).1.dtor w).exit = .returns →
        ((ThreadRAII.ctor h .join).1.dtor w).world.tasks tid = .finished
        ∧ (∀ writes f, w.tasks tid = .running writes → f ∈ writes →
            ((ThreadRAII.ctor h .join).1.dtor w).world.flags f = true)
        ∧ ((ThreadRAII.ctor h .join).1.dtor w).obj.t.joinable = false)
    ∧ (w.fails (.join tid) = false → w.tasks tid ≠ .looping →
        ((ThreadRAII.ctor h .join).1.dtor w).exit = .returns) := by
  refine ⟨?_, ?_, ?_⟩
  · exact dtor_ops _ tid w (by simp [ThreadRAII.ctor, Thread.move, hj])
  · simp only [ThreadRAII.dtor, ThreadRAII.dtorBody, ThreadRAII.ctor, Thread.move,
      Thread.joinable, Thread.join, hj, Option.isSome_some, if_true]
    by_cases hf : w.fails (Op.join tid) = true
    · simp [hf, Exit.atNoexcept]
    · simp only [hf]
      cases ht : w.tasks tid with
      | running writes =>
        simp [World.complete, World.record, ht, Exit.atNoexcept]
        intro ws f hw hmem
        subst hw
        exact Or.inl hmem
      | looping => simp [Exit.atNoexcept]
      | finished => simp [World.complete, World.record, ht, Exit.atNoexcept]
  · intro hf hl
    simp only [ThreadRAII.dtor, ThreadRAII.dtorBody, ThreadRAII.ctor, Thread.move,
      Thread.joinable, Thread.join, hj, Option.isSome_some, if_true, hf]
    cases ht : w.tasks tid with
    | running writes => simp [Exit.atNoexcept]
    | looping => exact absurd ht hl
    | finished => simp [Exit.atNoexcept]

/-- Witness for C1: the thread of `main`, wrapped with `DtorAction::join`; the destructor
returns and flag `0`, which the thread sets, is set. -/
theorem join_on_exit_witness :
    ((ThreadRAII.ctor ⟨some 0⟩ .join).1.dtor started).exit = .returns
    ∧ ((ThreadRAII.ctor ⟨some 0⟩ .join).1.dtor started).world.flags 0 = true
    ∧ ((ThreadRAII.ctor ⟨some 0⟩ .join).1.dtor started).world.ops = started.ops ++ [Op.join 0]
    ∧ (((ThreadRAII.ctor ⟨some 0⟩ .join).1.dtor started).exit = .returns →
        ((ThreadRAII.ctor ⟨some 0⟩ .join).1.dtor started).world.tasks 0 = .finished
        ∧ (∀ writes f, started.tasks 0 = .running writes → f ∈ writes →
            ((ThreadRAII.ctor ⟨some 0⟩ .join).1.dtor started).world.flags f = true)
        ∧ ((ThreadRAII.ctor ⟨some 0⟩ .join).1.dtor started).obj.t.joinable = false)
    ∧ (started.fails (.join 0) = false → started.tasks 0 ≠ .looping →
        ((ThreadRAII.ctor ⟨some 0⟩ .join).1.dtor started).exit = .returns) :=
  ⟨rfl, by decide, join_on_exit ⟨some 0⟩ 0 started rfl⟩

/-- C2: a `ThreadRAII` constructed with a joinable handle and `DtorAction::detach` performs
exactly one detach on its thread and no join in the destructor, which never blocks and
leaves the progress of every thread and every flag as they were (a running thread is still
running); when the destructor returns the handle is not joinable, and it does return when
the detach does not fail. -/
theorem detach_on_exit (h : Thread) (tid : Tid) (w : World) (hj : h.id = some tid) :
    ((ThreadRAII.ctor h .detach).1.dtor w).world.ops = w.ops ++ [Op.detach tid]
    ∧ ((ThreadRAII.ctor h .detach).1.dtor w).exit ≠ .blocks
    ∧ ((ThreadRAII.ctor h .detach).1.dtor w).world.tasks = w.tasks
    ∧ ((ThreadRAII.ctor h .detach).1.dtor w).world.flags = w.flags
    ∧ (((ThreadRAII.ctor h .detach).1.dtor w).exit = .returns →
        ((ThreadRAII.ctor h .detach).1.dtor w).obj.t.joinable = false)
    ∧ (w.fails (.detach tid) = false →
        ((ThreadRAII.ctor h .detach).1.dtor w).exit = .returns) := by
  refine ⟨dtor_ops _ tid w (by simp [ThreadRAII.ctor, Thread.move, hj]), ?_⟩
  simp only [ThreadRAII.dtor, ThreadRAII.dtorBody, ThreadRAII.ctor, Thread.move,
    Thread.joinable, Thread.detach, hj, Option.isSome_some, if_true]
  by_cases hf : w.fails (Op.detach tid) = true <;>
    simp [hf, Exit.atNoexcept, World.record]

/-- Witness for C2: a thread that loops for ever, wrapped with `DtorAction::detach`; the
destructor returns. -/
theorem detach_on_exit_witness :
    spinning.tasks 0 = .looping
    ∧ ((ThreadRAII.ctor ⟨some 0⟩ .detach).1.dtor spinning).exit = .returns
    ∧ ((ThreadRAII.ctor ⟨some 0⟩ .detach).1.dtor spinning).world.ops
        = spinning.ops ++ [Op.detach 0]
    ∧ ((ThreadRAII.ctor ⟨some 0⟩ .detach).1.dtor spinning).exit ≠ .blocks
    ∧ ((ThreadRAII.ctor ⟨some 0⟩ .detach).1.dtor spinning).world.tasks = spinning.tasks
    ∧ ((ThreadRAII.ctor ⟨some 0⟩ .detach).1.dtor spinning).world.flags = spinning.flags
    ∧ (((ThreadRAII.ctor ⟨some 0⟩ .detach).1.dtor spinning).exit = .returns →
        ((ThreadRAII.ctor ⟨some 0⟩ .detach).1.dtor spinning).obj.t.joinable = false)
    ∧ (spinning.fails (.detach 0) = false →
        ((ThreadRAII.ctor ⟨some 0⟩ .detach).1.dtor spinning).exit = .returns) :=
  ⟨rfl, rfl, detach_on_exit ⟨some 0⟩ 0 spinning rfl⟩

/-- C3: for either policy, a `ThreadRAII` constructed from a handle that is not joinable
holds that very handle, and its destructor returns without a failure, performs neither
join nor detach, and leaves the object and the world unchanged. -/
theorem not_joinable_noop (h : Thread) (a : DtorAction) (w : World)
    (hn : h.joinable = false) :
    (ThreadRAII.ctor h a).1.t = h
    ∧ (ThreadRAII.ctor h a).1.dtor w = ⟨.returns, (ThreadRAII.ctor h a).1, w⟩ := by
  have hid : h.id = none := by
    cases hh : h.id with
    | none => rfl
    | some tid => simp [Thread.joinable, hh] at hn
  exact ⟨rfl, dtor_not_joinable _ w (by simp [ThreadRAII.ctor, Thread.move, hid])⟩

/-- Witness for C3: a default-constructed handle under `DtorAction::join`. -/
theorem not_joinable_noop_witness :
    (ThreadRAII.ctor ⟨none⟩ .join).1.t = ⟨none⟩
    ∧ (ThreadRAII.ctor ⟨none⟩ .join).1.dtor started
        = ⟨.returns, (ThreadRAII.ctor ⟨none⟩ .join).1, started⟩ :=
  not_joinable_noop ⟨none⟩ .join started rfl

/-- The destructor run any number of times on an object whose handle is not joinable
changes nothing. -/
theorem dtorTimes_not_joinable (n : Nat) (self : ThreadRAII) (w : World)
    (hn : self.t.id = none) : self.dtorTimes n w = ⟨.returns, self, w⟩ := by
  induction n with
  | zero => rfl
  | succ n ih => simp [ThreadRAII.dtorTimes, dtor_not_joinable self w hn, ih]

/-- A sequence of calls leaves the data member `action` as it was. -/
theorem runCalls_action (cs : List Call) (self : ThreadRAII) (w : World) :
    (runCalls cs self w).obj.action = self.action := by
  induction cs generalizing self w with
  | nil => rfl
  | cons c cs ih =>
    have hc : (c.run self w).obj.action = self.action := by
      cases c with
      | get => rfl
      | onHandle f => rfl
      | dtor =>
        simp only [Call.run, ThreadRAII.dtor, ThreadRAII.dtorBody]
        split
        · split <;> rfl
        · rfl
    simp only [runCalls]
    split
    · rw [ih, hc]
    · exact hc

/-- C5, as stated, fails: when the platform cannot join the thread, the destructor of a
joining wrapper does not return; the exception of `join` leaves the destructor body and
the process is terminated. -/
theorem dtor_join_failure_terminates :
    joinFailing.fails (Op.join 0) = true
    ∧ ((ThreadRAII.ctor ⟨some 0⟩ .join).1.dtorBody joinFailing).exit = .throws
    ∧ ((ThreadRAII.ctor ⟨some 0⟩ .join).1.dtor joinFailing).exit = .terminates
    ∧ ((ThreadRAII.ctor ⟨some 0⟩ .join).1.dtor joinFailing).exit ≠ .returns := by
  decide

/-- C5, amended: for every state and either policy the destructor never passes an
exception to its caller, and it raises no failure of its own: the process is terminated
exactly when the handle is joinable and the join or detach the policy asks for fails. -/
theorem dtor_failure_iff (self : ThreadRAII) (w : World) :
    (self.dtor w).exit ≠ .throws
    ∧ ((self.dtor w).exit = .terminates ↔
        ∃ tid, self.t.id = some tid ∧ w.fails (self.action.op tid) = true) := by
  cases hid : self.t.id with
  | none => simp [dtor_not_joinable self w hid]
  | some tid =>
    cases ha : self.action <;>
      simp only [ThreadRAII.dtor, ThreadRAII.dtorBody, Thread.joinable, Thread.join,
        Thread.detach, hid, ha, DtorAction.op, Option.isSome_some, if_true]
    · by_cases hf : w.fails (Op.join tid) = true
      · simp [hf, Exit.atNoexcept]
      · simp only [hf]
        cases ht : w.tasks tid <;> simp [Exit.atNoexcept, hf]
    · by_cases hf : w.fails (Op.detach tid) = true <;> simp [hf, Exit.atNoexcept]

/-- C6: once the destructor has returned the handle is not joinable, so a second run of
the destructor performs neither join nor detach and changes nothing; and any positive
number of runs of the destructor on an object that owns a thread performs exactly one
operation on it. -/
theorem dispose_once (self : ThreadRAII) (w : World) (n : Nat) :
    ((self.dtor w).exit = .returns →
        (self.dtor w).obj.t.joinable = false
        ∧ (self.dtor w).obj.dtor (self.dtor w).world
            = ⟨.returns, (self.dtor w).obj, (self.dtor w).world⟩)
    ∧ (∀ tid, self.t.id = some tid →
        (self.dtorTimes (n + 1) w).world.ops = w.ops ++ [self.action.op tid]) := by
  constructor
  · intro hr
    have hid := dtor_returns_not_joinable self w hr
    exact ⟨by simp [Thread.joinable, hid], dtor_not_joinable _ _ hid⟩
  · intro tid hj
    simp only [ThreadRAII.dtorTimes]
    split
    · rename_i hr
      rw [dtorTimes_not_joinable n _ _ (dtor_returns_not_joinable self w hr)]
      exact dtor_ops self tid w hj
    · exact dtor_ops self tid w hj

/-- Witness for C6: the destructor of a joining wrapper of the thread of `main`, run three
times. -/
theorem dispose_once_witness :
    ((ThreadRAII.mk .join ⟨some 0⟩).dtor started).exit = .returns
    ∧ ((ThreadRAII.mk .join ⟨some 0⟩).dtorTimes 3 started).world.ops = [Op.join 0]
    ∧ (((ThreadRAII.mk .join ⟨some 0⟩).dtor started).obj.t.joinable = false
        ∧ ((ThreadRAII.mk .join ⟨some 0⟩).dtor started).obj.dtor
            ((ThreadRAII.mk .join ⟨some 0⟩).dtor started).world
          = ⟨.returns, ((ThreadRAII.mk .join ⟨some 0⟩).dtor started).obj,
              ((ThreadRAII.mk .join ⟨some 0⟩).dtor started).world⟩) :=
  ⟨rfl, (dispose_once ⟨.join, ⟨some 0⟩⟩ started 2).2 0 rfl,
    (dispose_once ⟨.join, ⟨some 0⟩⟩ started 2).1 rfl⟩

/-- C7: for either policy `get()` yields the owned handle itself, changes neither the
object nor the world, and a join through it acts on the owned thread: it is recorded as
one join of that thread, keeps the policy, and returns exactly when the platform does not
fail and the thread is not looping.  When that early join has returned the handle is not
joinable, the destructor afterwards returns and performs neither join nor detach, and the
thread has been joined exactly once in total. -/
theorem early_join_via_get (self : ThreadRAII) (w : World) :
    self.get = self.t
    ∧ Call.run .get self w = ⟨.returns, self, w⟩
    ∧ ∀ tid, self.t.id = some tid →
        (self.onGet Thread.join w).world.ops = w.ops ++ [Op.join tid]
        ∧ (self.onGet Thread.join w).obj.action = self.action
        ∧ ((self.onGet Thread.join w).exit = .returns ↔
            (w.fails (.join tid) = false ∧ w.tasks tid ≠ .looping))
        ∧ ((self.onGet Thread.join w).exit = .returns →
            (self.onGet Thread.join w).obj.t.joinable = false
            ∧ (self.onGet Thread.join w).world.tasks tid = .finished
            ∧ (self.onGet Thread.join w).obj.dtor (self.onGet Thread.join w).world
                = ⟨.returns, (self.onGet Thread.join w).obj, (self.onGet Thread.join w).world⟩
            ∧ ((self.onGet Thread.join w).obj.dtor (self.onGet Thread.join w).world).world.ops
                = w.ops ++ [Op.join tid]) := by
  refine ⟨rfl, rfl, ?_⟩
  intro tid hj
  have hops : (self.onGet Thread.join w).world.ops = w.ops ++ [Op.join tid] := by
    simp only [ThreadRAII.onGet, ThreadRAII.get, Thread.join, hj]
    by_cases hf : w.fails (Op.join tid) = true
    · simp [hf, World.record]
    · simp only [hf]
      cases ht : w.tasks tid <;> simp [World.record, World.complete, ht]
  have hiff : (self.onGet Thread.join w).exit = .returns ↔
      (w.fails (.join tid) = false ∧ w.tasks tid ≠ .looping) := by
    simp only [ThreadRAII.onGet, ThreadRAII.get, Thread.join, hj]
    by_cases hf : w.fails (Op.join tid) = true
    · simp [hf]
    · simp only [hf]
      cases ht : w.tasks tid <;> simp
  have hid : (self.onGet Thread.join w).exit = .returns →
      (self.onGet Thread.join w).obj.t.id = none
      ∧ (self.onGet Thread.join w).world.tasks tid = .finished := by
    simp only [ThreadRAII.onGet, ThreadRAII.get, Thread.join, hj]
    by_cases hf : w.fails (Op.join tid) = true
    · simp [hf]
    · simp only [hf]
      cases ht : w.tasks tid <;> simp [World.record, World.complete, ht]
  refine ⟨hops, rfl, hiff, fun hr => ?_⟩
  obtain ⟨hnone, hfin⟩ := hid hr
  refine ⟨by simp [Thread.joinable, hnone], hfin, dtor_not_joinable _ _ hnone, ?_⟩
  rw [dtor_not_joinable _ _ hnone]
  exact hops

/-- Witness for C7: an early join of the thread of `main` through `get()`, under
`DtorAction::join` and under `DtorAction::detach`; the join returns and the history after
the destructor holds one join. -/
theorem early_join_via_get_witness :
    ((ThreadRAII.mk .join ⟨some 0⟩).get = ⟨some 0⟩
      ∧ ((ThreadRAII.mk .join ⟨some 0⟩).onGet Thread.join started).exit = .returns
      ∧ (((ThreadRAII.mk .join ⟨some 0⟩).onGet Thread.join started).obj.dtor
            ((ThreadRAII.mk .join ⟨some 0⟩).onGet Thread.join started).world).world.ops
          = [Op.join 0])
    ∧ ((ThreadRAII.mk .detach ⟨some 0⟩).get = ⟨some 0⟩
      ∧ ((ThreadRAII.mk .detach ⟨some 0⟩).onGet Thread.join started).exit = .returns
      ∧ (((ThreadRAII.mk .detach ⟨some 0⟩).onGet Thread.join started).obj.dtor
            ((ThreadRAII.mk .detach ⟨some 0⟩).onGet Thread.join started).world).world.ops
          = [Op.join 0]) :=
  ⟨⟨(early_join_via_get ⟨.join, ⟨some 0⟩⟩ started).1, rfl,
      (((early_join_via_get ⟨.join, ⟨some 0⟩⟩ started).2.2 0 rfl).2.2.2 rfl).2.2.2⟩,
    ⟨(early_join_via_get ⟨.detach, ⟨some 0⟩⟩ started).1, rfl,
      (((early_join_via_get ⟨.detach, ⟨some 0⟩⟩ started).2.2 0 rfl).2.2.2 rfl).2.2.2⟩⟩

/-- C8: after any sequence of the calls available on a `ThreadRAII` (`get()`, member
functions of `std::thread` on the handle obtained through `get()`, the destructor) the
data member `action` is the policy that was given to the constructor. -/
theorem action_immutable (h : Thread) (a : DtorAction) (cs : List Call) (w : World) :
    (runCalls cs (ThreadRAII.ctor h a).1 w).obj.action = a := by
  rw [runCalls_action]
  rfl

/-- C9: the constructor only transfers ownership: the handle of the new object refers to
the thread the argument referred to and is joinable exactly when the argument was, the
data member `action` is the given policy, and the argument is left empty, not joinable. -/
theorem ctor_transfers_ownership (h : Thread) (a : DtorAction) :
    (ThreadRAII.ctor h a).1.t.id = h.id
    ∧ (ThreadRAII.ctor h a).1.t.joinable = h.joinable
    ∧ (ThreadRAII.ctor h a).1.action = a
    ∧ (ThreadRAII.ctor h a).2.id = none
    ∧ (ThreadRAII.ctor h a).2.joinable = false :=
  ⟨rfl, rfl, rfl, rfl, rfl⟩

end Chapter6

namespace Chapter1

/-- An lvalue reference to an `α` inside a `σ`: what reading through it yields and what
assigning through it does to the object it points into.  `none` stands for undefined
behaviour. -/
structure Ref (σ α : Type) where
  read : σ → Option α
  assign : σ → α → Option σ

/-- The function template `get(Container &c, Index i)` with `c` a `std::vector`: it returns
`c[i]`, and `decltype(auto)` keeps it a reference to the element. -/
def get {α : Type} (i : Nat) : Ref (Array α) α :=
  { read := fun c => c.get? i
    assign := fun c x => if h : i < c.size then some (c.set ⟨i, h⟩ x) else none }

/-- C10: reading through `get(v, i)` yields the element `v[i]`, and for every vector `v`,
every index `i` in range and every value `x` the assignment `get(v, i) = x` is defined and
yields a vector whose element at index `i` is `x`, whose length is that of `v`, and whose
element at every other index is that of `v`. -/
theorem get_assign {α : Type} (v : Array α) (i : Nat) (x : α) (hi : i < v.size) :
    (get i).read v = v[i]?
    ∧ ∃ v', (get i).assign v x = some v'
      ∧ v'[i]? = some x
      ∧ v'.size = v.size
      ∧ (∀ j, j ≠ i → v'[j]? = v[j]?)
      ∧ (get i).read v' = some x := by
  refine ⟨by simp [get, Array.get?_eq_getElem?], v.set ⟨i, hi⟩ x, by simp [get, hi], ?_,
    by simp, ?_, ?_⟩
  · simpa using Array.getElem?_set_eq v ⟨i, hi⟩ x
  · intro j hji
    simpa using Array.getElem?_set_ne v ⟨i, hi⟩ x (Ne.symm hji)
  · simpa [get, Array.get?_eq_getElem?] using Array.getElem?_set_eq v ⟨i, hi⟩ x

/-- Witness for C10: `main` of 3.cpp, `v = { 1, 2, 3 }` and `get(v, 1) = 5`, which gives
`{ 1, 5, 3 }`; at index `0` the same assignment gives `{ 5, 2, 3 }`. -/
theorem get_assign_witness :
    (get 1).assign (#[1, 2, 3] : Array Int) 5 = some #[1, 5, 3]
    ∧ (get 0).assign (#[1, 2, 3] : Array Int) 5 = some #[5, 2, 3]
    ∧ (get 0).read (#[1, 2, 3] : Array Int) = some 1
    ∧ (get 1).read (#[1, 2, 3] : Array Int) = (#[1, 2, 3] : Array Int)[1]?
    ∧ ∃ v', (get 1).assign (#[1, 2, 3] : Array Int) 5 = some v'
      ∧ v'[1]? = some 5
      ∧ v'.size = (#[1, 2, 3] : Array Int).size
      ∧ (∀ j, j ≠ 1 → v'[j]? = (#[1, 2, 3] : Array Int)[j]?)
      ∧ (get 1).read v' = some 5 :=
  ⟨by decide, by decide, by decide, get_assign #[1, 2, 3] 1 5 (by decide)⟩

end Chapter1
